import Mathlib

/-!
Shallow embedding of the uploads/storage service of this repository
(`UploadsService` in the NestJS backend, together with `UploadsController`).

The service persists binary files (avatars, attachments) either in an S3
bucket (remote mode) or on the local filesystem (local mode), and issues
string references that its delete/read paths parse back.

Modelling conventions:
* JavaScript strings are Lean `String`s; the JS string operations used by the
  source (`startsWith`, `String.prototype.replace` with a plain-string
  pattern, i.e. replace-first, the anchored regex strip `^\/uploads\//`,
  `Array.prototype.join('/')`, the sanitizing regex+`toLowerCase`) are
  defined below, character-list based so they are easy to reason about.
* The S3 bucket is an association list from keys to objects; the local
  filesystem is a list of (path, bytes) files plus a list of directories.
  `path.join(a, b)` on the well-formed inputs the service builds is modelled
  as `a ++ "/" ++ b` (node's dot-segment normalization is not modelled; all
  write and delete paths go through the same syntactic join).
* `uuidv4()` and the `sharp` image pipeline are external effects: the fresh
  uuid and the transcoded avatar buffer are explicit parameters.
* Fallible backend I/O is modelled by an explicit `Bool` parameter saying
  whether the backend call throws; operations return the new world state
  together with an `Except` mirroring whether the JS method throws to its
  caller (try/catch blocks in the source swallow the error and yield `ok`).
-/

namespace Uploads

deriving instance DecidableEq for Except

/-- File contents: a byte buffer. -/
abbrev Bytes := List Nat

/-! ## JS string primitives -/

/-- `pat` is a prefix of `s` (char lists). -/
def isPre : List Char → List Char → Bool
  | [], _ => true
  | _ :: _, [] => false
  | a :: as, b :: bs => a == b && isPre as bs

/-- JS `s.startsWith(pre)`. -/
def strStarts (s pre : String) : Bool := isPre pre.data s.data

/-- Replace the first occurrence of `pat` in `s` by nothing (char lists);
this is JS `s.replace(pat, '')` for a plain-string pattern. -/
def replFirstL (pat : List Char) : List Char → List Char
  | [] => []
  | c :: cs => if isPre pat (c :: cs) then (c :: cs).drop pat.length
               else c :: replFirstL pat cs

/-- JS `s.replace(pat, '')` (plain-string pattern: first occurrence only). -/
def jsReplaceFirst (s pat : String) : String := ⟨replFirstL pat.data s.data⟩

/-- JS `s.replace(/^\/uploads\//, '')`: strip the anchored path namespace. -/
def stripUploads (s : String) : String :=
  if strStarts s "/uploads/" then ⟨s.data.drop 9⟩ else s

/-- JS `[..].join('/')` (`Array.prototype.join`). -/
def joinSlash : List String → String
  | [] => ""
  | [x] => x
  | x :: rest => x ++ "/" ++ joinSlash rest

/-- Suffix of `s` after the first occurrence of `pat`, if any. -/
def afterFirst (pat : List Char) : List Char → Option (List Char)
  | [] => none
  | c :: cs => if isPre pat (c :: cs) then some ((c :: cs).drop pat.length)
               else afterFirst pat cs

/-- `new URL(url).pathname.substring(1)` for simple absolute URLs: the part
after the first `/` following `scheme://`. Returns `none` when the string has
no `://` (the `new URL` constructor throws). Queries/fragments/userinfo are
not modelled. -/
def urlKeyOf (url : String) : Option String :=
  match afterFirst "://".data url.data with
  | none => none
  | some rest => some ⟨(rest.dropWhile (· ≠ '/')).drop 1⟩

/-! ## Sanitization (`sanitizeName`) -/

/-- Characters kept by the regex class `[a-z0-9\-_]` with the `i` flag. -/
def allowedCI (c : Char) : Bool :=
  ('a' ≤ c && c ≤ 'z') || ('A' ≤ c && c ≤ 'Z') ||
  ('0' ≤ c && c ≤ '9') || c == '-' || c == '_'

/-- Per-character effect of `name.replace(/[^a-z0-9\-_]/gi, '_').toLowerCase()`.
Both steps are per-character, so they compose pointwise; only ASCII reaches
the lowercase step, where JS and `Char.toLower` agree. -/
def sanChar (c : Char) : Char := (if allowedCI c then c else '_').toLower

/-- `sanitizeName` from the service. -/
def sanitizeName (name : String) : String := ⟨name.data.map sanChar⟩

/-! ## Backends -/

/-- An object stored in the bucket. -/
structure S3Object where
  body : Bytes
  contentType : Option String
deriving DecidableEq, Repr

/-- Bucket contents, newest entry first, unique keys maintained by `s3Put`. -/
abbrev S3State := List (String × S3Object)

def s3Lookup (s3 : S3State) (key : String) : Option S3Object :=
  (s3.find? (fun e => e.1 = key)).map (·.2)

def s3Put (s3 : S3State) (key : String) (obj : S3Object) : S3State :=
  (key, obj) :: s3.filter (fun e => e.1 ≠ key)

def s3Delete (s3 : S3State) (key : String) : S3State :=
  s3.filter (fun e => e.1 ≠ key)

/-- One `ListObjectsV2` page: keys under `pfx`, capped at the backend page
size (`cap`); the service never passes a continuation token. -/
def s3ListPage (s3 : S3State) (pfx : String) (cap : Nat) : List String :=
  ((s3.map (·.1)).filter (fun k => strStarts k pfx)).take cap

/-- `DeleteObjectsCommand` on a batch of keys. -/
def s3DeleteMany (s3 : S3State) (keys : List String) : S3State :=
  s3.filter (fun e => ¬ keys.contains e.1)

/-- Local filesystem: regular files (full path ↦ bytes) and directories. -/
structure LocalFS where
  files : List (String × Bytes)
  dirs : List String
deriving DecidableEq, Repr

def fsExistsFile (fs : LocalFS) (p : String) : Bool :=
  fs.files.any (fun f => f.1 = p)

def fsExistsDir (fs : LocalFS) (p : String) : Bool :=
  fs.dirs.any (fun d => d = p)

/-- node `fs.existsSync`: true for a regular file or a directory. -/
def fsExists (fs : LocalFS) (p : String) : Bool :=
  fsExistsFile fs p || fsExistsDir fs p

/-- node `fs.writeFileSync` (create or overwrite). -/
def fsWrite (fs : LocalFS) (p : String) (b : Bytes) : LocalFS :=
  { fs with files := (p, b) :: fs.files.filter (fun f => f.1 ≠ p) }

/-- node `fs.unlinkSync`. -/
def fsUnlink (fs : LocalFS) (p : String) : LocalFS :=
  { fs with files := fs.files.filter (fun f => f.1 ≠ p) }

/-- node `fs.rmSync(p, {recursive, force})`: removes the entry at `p` and
everything below it. -/
def fsRmTree (fs : LocalFS) (p : String) : LocalFS :=
  { files := fs.files.filter (fun f => ¬ (f.1 = p || strStarts f.1 (p ++ "/"))),
    dirs := fs.dirs.filter (fun d => ¬ (d = p || strStarts d (p ++ "/"))) }

/-! ## The service -/

/-- Stands for `path.join(__dirname, '..', '..', '..', 'uploads')`. -/
def uploadsDir : String := "/srv/app/uploads"

/-- Backend mode fixed at construction. -/
inductive Mode where
  | remote
  | local
deriving DecidableEq, Repr

/-- Errors a service method can throw to its caller. -/
inductive StorageErr where
  | writeError
deriving DecidableEq, Repr

/-- Errors thrown by `getFileStream`. -/
inductive GetErr where
  | notFound
deriving DecidableEq, Repr

/-- What the returned read stream is backed by: the bytes of a regular file,
or a `createReadStream` opened on a directory (whose reads fail). -/
inductive StreamBody where
  | fileBytes (b : Bytes)
  | dirStream
deriving DecidableEq, Repr

/-- Combined backend state. -/
structure World where
  s3 : S3State
  fs : LocalFS
deriving DecidableEq, Repr

/-- The environment the constructor reads via `ConfigService`. `none` models
an unset variable; an empty string is falsy in JS exactly like `undefined`. -/
structure ConfigEnv where
  region : Option String
  accessKeyId : Option String
  secretAccessKey : Option String
  sessionToken : Option String
  bucketName : Option String
deriving DecidableEq, Repr

/-- JS truthiness of `configService.get<string>(..)`. -/
def truthy : Option String → Bool
  | none => false
  | some s => !(s = "")

/-- The constructor's branch condition (`region && accessKeyId &&
secretAccessKey && this.bucketName`; the session token is optional). -/
def selectRemote (cfg : ConfigEnv) : Bool :=
  truthy cfg.region && truthy cfg.accessKeyId &&
  truthy cfg.secretAccessKey && truthy cfg.bucketName

/-- `ensureDirectoryExists`. -/
def ensureDirectoryExists (fs : LocalFS) (dirPath : String) : LocalFS :=
  if fsExists fs dirPath then fs else { fs with dirs := dirPath :: fs.dirs }

/-- The `UploadsService` constructor: decides the mode and, in local mode,
creates the two base subdirectories. Total: no configuration makes it throw. -/
def initGateway (cfg : ConfigEnv) (fs : LocalFS) : Mode × LocalFS :=
  if selectRemote cfg then (.remote, fs)
  else (.local,
    ensureDirectoryExists
      (ensureDirectoryExists fs (uploadsDir ++ "/avatars"))
      (uploadsDir ++ "/attachments"))

/-- `saveAvatar`. `avatarBuffer` is the output of the external `sharp`
256×256 webp pipeline; `uuid` the fresh `uuidv4()`. `putFails` injects a
backend write failure, which this method does not catch. -/
def saveAvatar (mode : Mode) (putFails : Bool) (uuid : String)
    (avatarBuffer : Bytes) (w : World) : World × Except StorageErr String :=
  let filename := "avatar-" ++ uuid ++ ".webp"
  match mode with
  | .remote =>
    let key := "avatars/" ++ filename
    if putFails then (w, .error .writeError)
    else ({ w with s3 := s3Put w.s3 key ⟨avatarBuffer, some "image/webp"⟩ },
          .ok ("/uploads/file/" ++ key))
  | .local =>
    if putFails then (w, .error .writeError)
    else ({ w with fs := fsWrite w.fs (uploadsDir ++ "/avatars/" ++ filename) avatarBuffer },
          .ok ("/uploads/avatars/" ++ filename))

/-- The blob `saveAttachment` receives (`Express.Multer.File`). -/
structure FileBlob where
  buffer : Bytes
  mimetype : String
  originalname : String
deriving DecidableEq, Repr

/-- What `saveAttachment` resolves with. -/
structure AttachmentResult where
  url : String
  type : String
  filename : String
deriving DecidableEq, Repr

/-- `saveAttachment`. -/
def saveAttachment (mode : Mode) (putFails : Bool) (uuid : String)
    (file : FileBlob) (pathSegments : List String) (w : World) :
    World × Except StorageErr AttachmentResult :=
  let isImage := strStarts file.mimetype "image/"
  let filename := uuid ++ "-" ++ file.originalname
  let sanitizedSegments := pathSegments.map sanitizeName
  match mode with
  | .remote =>
    let key := "attachments/" ++ joinSlash sanitizedSegments ++ "/" ++ filename
    if putFails then (w, .error .writeError)
    else ({ w with s3 := s3Put w.s3 key ⟨file.buffer, some file.mimetype⟩ },
          .ok ⟨"/uploads/file/" ++ key,
               if isImage then "IMAGE" else "FILE", file.originalname⟩)
  | .local =>
    let relativeDir := joinSlash ("attachments" :: sanitizedSegments)
    let absoluteDir := uploadsDir ++ "/" ++ relativeDir
    let fs1 := ensureDirectoryExists w.fs absoluteDir
    let filepath := absoluteDir ++ "/" ++ filename
    if putFails then ({ w with fs := fs1 }, .error .writeError)
    else ({ w with fs := fsWrite fs1 filepath file.buffer },
          .ok ⟨"/" ++ joinSlash ("uploads" :: "attachments" :: sanitizedSegments ++ [filename]),
               if isImage then "IMAGE" else "FILE", file.originalname⟩)

/-- `deleteFile`. Every branch is wrapped in try/catch that logs and
swallows, so the method always resolves (`Except.ok`). `backendFails`
injects a thrown backend/filesystem error inside the active branch. -/
def deleteFile (mode : Mode) (backendFails : Bool) (fileUrl : String)
    (w : World) : World × Except StorageErr Unit :=
  if mode = .remote && strStarts fileUrl "/uploads/file/" then
    if backendFails then (w, .ok ())
    else
      let key := jsReplaceFirst fileUrl "/uploads/file/"
      ({ w with s3 := s3Delete w.s3 key }, .ok ())
  else if mode = .remote && strStarts fileUrl "http" then
    if backendFails then (w, .ok ())
    else
      match urlKeyOf fileUrl with
      | none => (w, .ok ())  -- new URL(...) threw; caught and logged
      | some key => ({ w with s3 := s3Delete w.s3 key }, .ok ())
  else
    if backendFails then (w, .ok ())
    else
      let relativePath := stripUploads fileUrl
      let fullPath := uploadsDir ++ "/" ++ relativePath
      if fsExistsFile w.fs fullPath then ({ w with fs := fsUnlink w.fs fullPath }, .ok ())
      else (w, .ok ())  -- not a regular file: skipped, or unlink threw and was caught

/-- `deleteFolder`. `listCap` is the backend's listing page size (S3 caps
`ListObjectsV2` at 1000 keys); the service sends a single list request with
no continuation token. Both branches catch and swallow errors. -/
def deleteFolder (mode : Mode) (listCap : Nat) (pathSegments : List String)
    (w : World) : World :=
  let sanitizedSegments := pathSegments.map sanitizeName
  match mode with
  | .remote =>
    let pfx := "attachments/" ++ joinSlash sanitizedSegments ++ "/"
    let listed := s3ListPage w.s3 pfx listCap
    if listed.length > 0 then { w with s3 := s3DeleteMany w.s3 listed } else w
  | .local =>
    let relativeDir := joinSlash ("attachments" :: sanitizedSegments)
    let fullPath := uploadsDir ++ "/" ++ relativeDir
    if fsExists w.fs fullPath then { w with fs := fsRmTree w.fs fullPath } else w

/-- Content type returned for an S3 object: `response.ContentType ||
'application/octet-stream'` (JS `||`: both `undefined` and `""` fall back). -/
def ctOrDefault : Option String → String
  | none => "application/octet-stream"
  | some ct => if ct = "" then "application/octet-stream" else ct

/-- `getFileStream`. Remote: `GetObjectCommand`, whose not-found rejection is
logged and rethrown. Local: `existsSync` then `createReadStream` (a directory
passes the existence check and yields a stream whose reads fail); otherwise
`throw new Error('File not found')`. -/
def getFileStream (mode : Mode) (key : String) (w : World) :
    Except GetErr (StreamBody × String) :=
  match mode with
  | .remote =>
    match s3Lookup w.s3 key with
    | some obj => .ok (.fileBytes obj.body, ctOrDefault obj.contentType)
    | none => .error .notFound
  | .local =>
    let filePath := uploadsDir ++ "/" ++ key
    match w.fs.files.find? (fun f => f.1 = filePath) with
    | some f => .ok (.fileBytes f.2, "application/octet-stream")
    | none =>
      if fsExistsDir w.fs filePath then .ok (.dirStream, "application/octet-stream")
      else .error .notFound

/-! ## The controller (`UploadsController`) -/

/-- HTTP outcome of the streaming routes. -/
inductive HttpResp where
  | okStream (body : StreamBody) (contentType : String) (disposition : String)
  | notFound404
deriving DecidableEq, Repr

/-- `streamFile`: any `getFileStream` rejection becomes a 404. -/
def streamFile (mode : Mode) (key : String) (w : World) : HttpResp :=
  match getFileStream mode key w with
  | .ok (b, ct) => .okStream b ct "inline"
  | .error _ => .notFound404

/-- `GET /uploads/file/*key`: the wildcard segments are joined with `/`. -/
def getFile (mode : Mode) (keyParts : List String) (w : World) : HttpResp :=
  streamFile mode (joinSlash keyParts) w

/-- `GET /uploads/avatars/:filename` (legacy). -/
def getAvatar (mode : Mode) (filename : String) (w : World) : HttpResp :=
  streamFile mode ("avatars/" ++ filename) w

/-- `GET /uploads/attachments/*path` (legacy). -/
def getAttachment (mode : Mode) (pathParts : List String) (w : World) : HttpResp :=
  streamFile mode ("attachments/" ++ joinSlash pathParts) w


/-! ## Character-class lemmas for `sanitizeName` -/

/-- Characters that may appear in a sanitized name. -/
def lowerAllowed (c : Char) : Bool :=
  ('a' ≤ c && c ≤ 'z') || ('0' ≤ c && c ≤ '9') || c == '-' || c == '_'

theorem char_le_iff_toNat {a b : Char} : a ≤ b ↔ a.toNat ≤ b.toNat := by
  rw [Char.le_def, UInt32.le_def]; rfl

theorem char_eq_iff_toNat {a b : Char} : a = b ↔ a.toNat = b.toNat := by
  constructor
  · intro h; rw [h]
  · intro h
    exact Char.ext (UInt32.ext h)

theorem lowerAllowed_iff {c : Char} :
    lowerAllowed c = true ↔
      (97 ≤ c.toNat ∧ c.toNat ≤ 122) ∨ (48 ≤ c.toNat ∧ c.toNat ≤ 57) ∨
      c.toNat = 45 ∨ c.toNat = 95 := by
  unfold lowerAllowed
  simp only [Bool.or_eq_true, Bool.and_eq_true, decide_eq_true_eq, beq_iff_eq,
    char_le_iff_toNat, char_eq_iff_toNat,
    show ('a').toNat = 97 from rfl, show ('z').toNat = 122 from rfl,
    show ('0').toNat = 48 from rfl, show ('9').toNat = 57 from rfl,
    show ('-').toNat = 45 from rfl, show ('_').toNat = 95 from rfl]
  omega

theorem allowedCI_iff {c : Char} :
    allowedCI c = true ↔
      (97 ≤ c.toNat ∧ c.toNat ≤ 122) ∨ (65 ≤ c.toNat ∧ c.toNat ≤ 90) ∨
      (48 ≤ c.toNat ∧ c.toNat ≤ 57) ∨ c.toNat = 45 ∨ c.toNat = 95 := by
  unfold allowedCI
  simp only [Bool.or_eq_true, Bool.and_eq_true, decide_eq_true_eq, beq_iff_eq,
    char_le_iff_toNat, char_eq_iff_toNat,
    show ('a').toNat = 97 from rfl, show ('z').toNat = 122 from rfl,
    show ('A').toNat = 65 from rfl, show ('Z').toNat = 90 from rfl,
    show ('0').toNat = 48 from rfl, show ('9').toNat = 57 from rfl,
    show ('-').toNat = 45 from rfl, show ('_').toNat = 95 from rfl]
  omega

theorem toLower_of_upper (c : Char) (h1 : 65 ≤ c.toNat) (h2 : c.toNat ≤ 90) :
    c.toLower = Char.ofNat (c.toNat + 32) := by
  unfold Char.toLower
  rw [if_pos ⟨h1, h2⟩]

theorem toLower_of_not_upper (c : Char) (h : ¬(65 ≤ c.toNat ∧ c.toNat ≤ 90)) :
    c.toLower = c := by
  unfold Char.toLower
  rw [if_neg h]

theorem sanChar_allowed (c : Char) : lowerAllowed (sanChar c) = true := by
  unfold sanChar
  by_cases h : allowedCI c = true
  · rw [if_pos h]
    rw [allowedCI_iff] at h
    by_cases hu : 65 ≤ c.toNat ∧ c.toNat ≤ 90
    · rw [toLower_of_upper c hu.1 hu.2]
      obtain ⟨h1, h2⟩ := hu
      set n := c.toNat with hn
      interval_cases n <;> decide
    · rw [toLower_of_not_upper c hu]
      rw [lowerAllowed_iff]
      omega
  · rw [if_neg h]
    decide


/-! ## String infrastructure lemmas -/

theorem str_data_append (a b : String) : (a ++ b).data = a.data ++ b.data := rfl

theorem str_ext {a b : String} (h : a.data = b.data) : a = b :=
  congrArg String.mk h

theorem str_append_assoc (a b c : String) : (a ++ b) ++ c = a ++ (b ++ c) := by
  apply str_ext
  simp [str_data_append]

theorem isPre_self_append (p t : List Char) : isPre p (p ++ t) = true := by
  induction p with
  | nil => rfl
  | cons a as ih => simp [isPre, ih]

theorem strStarts_append (pre t : String) : strStarts (pre ++ t) pre = true := by
  unfold strStarts
  rw [str_data_append]
  exact isPre_self_append _ _

theorem replFirstL_self_append (p t : List Char) (hp : p ≠ []) :
    replFirstL p (p ++ t) = t := by
  cases p with
  | nil => exact absurd rfl hp
  | cons a as =>
    rw [List.cons_append]
    unfold replFirstL
    rw [← List.cons_append, if_pos (isPre_self_append _ _), List.drop_left]

theorem jsReplaceFirst_pre (pre t : String) (hp : pre.data ≠ []) :
    jsReplaceFirst (pre ++ t) pre = t := by
  unfold jsReplaceFirst
  rw [str_data_append, replFirstL_self_append _ _ hp]

theorem stripUploads_pre (t : String) : stripUploads ("/uploads/" ++ t) = t := by
  unfold stripUploads
  rw [if_pos (strStarts_append _ _)]
  apply str_ext
  show ("/uploads/" ++ t).data.drop 9 = t.data
  rw [str_data_append]
  have h9 : ("/uploads/").data.length = 9 := rfl
  rw [← h9, List.drop_left]

theorem joinSlash_cons (x : String) (rest : List String) (h : rest ≠ []) :
    joinSlash (x :: rest) = x ++ "/" ++ joinSlash rest := by
  cases rest with
  | nil => exact absurd rfl h
  | cons y ys => rfl

theorem joinSlash_append_last (xs : List String) (y : String) (h : xs ≠ []) :
    joinSlash (xs ++ [y]) = joinSlash xs ++ "/" ++ y := by
  induction xs with
  | nil => exact absurd rfl h
  | cons x xs ih =>
    cases xs with
    | nil => rfl
    | cons z zs =>
      rw [List.cons_append, joinSlash_cons x ((z :: zs) ++ [y]) (by simp),
        ih (by simp), joinSlash_cons x (z :: zs) (by simp)]
      simp [str_append_assoc]

/-! ## Directory creation lemmas -/

theorem fsExists_ensure_self (fs : LocalFS) (p : String) :
    fsExists (ensureDirectoryExists fs p) p = true := by
  unfold ensureDirectoryExists
  by_cases h : fsExists fs p = true
  · rw [if_pos h]; exact h
  · rw [if_neg h]
    simp [fsExists, fsExistsDir]

theorem fsExists_ensure_mono (fs : LocalFS) (p q : String)
    (h : fsExists fs p = true) :
    fsExists (ensureDirectoryExists fs q) p = true := by
  unfold ensureDirectoryExists
  by_cases hq : fsExists fs q = true
  · rw [if_pos hq]; exact h
  · rw [if_neg hq]
    unfold fsExists fsExistsFile fsExistsDir at h ⊢
    simp only [Bool.or_eq_true, List.any_eq_true, decide_eq_true_eq] at h ⊢
    rcases h with h | ⟨d, hd, rfl⟩
    · exact Or.inl h
    · exact Or.inr ⟨d, List.mem_cons_of_mem _ hd, rfl⟩

/-! ## Claim theorems (C1, C4) -/

/-- C1: the gateway activates remote mode iff region, access key, secret key
and bucket name are all present and non-empty (the session token is
unconstrained); any other configuration yields local mode — the constructor
is a total function, it cannot crash — the selected mode depends only on the
configuration, and in local mode the two base directories exist afterwards. -/
theorem initGateway_fst (cfg : ConfigEnv) (fs : LocalFS) :
    (initGateway cfg fs).1 = (if selectRemote cfg then Mode.remote else Mode.local) := by
  unfold initGateway
  split <;> rfl

theorem initGateway_snd_of_not (cfg : ConfigEnv) (fs : LocalFS)
    (h : ¬ selectRemote cfg = true) :
    (initGateway cfg fs).2 =
      ensureDirectoryExists (ensureDirectoryExists fs (uploadsDir ++ "/avatars"))
        (uploadsDir ++ "/attachments") := by
  unfold initGateway
  rw [if_neg h]

theorem initGateway_mode (cfg : ConfigEnv) (fs fs2 : LocalFS) :
    ((initGateway cfg fs).1 = .remote ↔
      (truthy cfg.region = true ∧ truthy cfg.accessKeyId = true ∧
       truthy cfg.secretAccessKey = true ∧ truthy cfg.bucketName = true)) ∧
    (initGateway cfg fs).1 = (initGateway cfg fs2).1 ∧
    ((initGateway cfg fs).1 = .local →
      fsExists (initGateway cfg fs).2 (uploadsDir ++ "/avatars") = true ∧
      fsExists (initGateway cfg fs).2 (uploadsDir ++ "/attachments") = true) := by
  rw [initGateway_fst, initGateway_fst]
  by_cases h : selectRemote cfg = true
  · rw [if_pos h]
    have hconj : truthy cfg.region = true ∧ truthy cfg.accessKeyId = true ∧
        truthy cfg.secretAccessKey = true ∧ truthy cfg.bucketName = true := by
      unfold selectRemote at h
      simp only [Bool.and_eq_true] at h
      exact ⟨h.1.1.1, h.1.1.2, h.1.2, h.2⟩
    exact ⟨⟨fun _ => hconj, fun _ => rfl⟩, rfl, fun hc => nomatch hc⟩
  · rw [if_neg h]
    refine ⟨?_, rfl, ?_⟩
    · constructor
      · intro hc
        exact nomatch hc
      · rintro ⟨h1, h2, h3, h4⟩
        exact absurd (by simp [selectRemote, h1, h2, h3, h4]) h
    · intro _
      rw [initGateway_snd_of_not cfg fs h]
      exact ⟨fsExists_ensure_mono _ _ _ (fsExists_ensure_self _ _),
             fsExists_ensure_self _ _⟩

theorem initGateway_mode_witness :
    (initGateway ⟨some "us-east-1", some "AKIAX", some "SECRET", none, none⟩
        ⟨[], []⟩ : Mode × LocalFS).1 = .local ∧
    fsExists (initGateway ⟨some "us-east-1", some "AKIAX", some "SECRET", none, none⟩
        ⟨[], []⟩).2 (uploadsDir ++ "/avatars") = true := by
  have h := initGateway_mode ⟨some "us-east-1", some "AKIAX", some "SECRET", none, none⟩
    ⟨[], []⟩ ⟨[], []⟩
  exact ⟨by decide, (h.2.2 (by decide)).1⟩

/-- Characters of a slash-join come from the joined strings or are `/`. -/
theorem mem_joinSlash_data {l : List String} {c : Char}
    (h : c ∈ (joinSlash l).data) : c = '/' ∨ ∃ s ∈ l, c ∈ s.data := by
  induction l with
  | nil => simp [joinSlash] at h
  | cons x rest ih =>
    cases rest with
    | nil => exact Or.inr ⟨x, by simp, h⟩
    | cons y ys =>
      rw [joinSlash_cons x (y :: ys) (by simp), str_data_append, str_data_append] at h
      rcases List.mem_append.mp h with h1 | h2
      · rcases List.mem_append.mp h1 with ha | hb
        · exact Or.inr ⟨x, by simp, ha⟩
        · left
          simpa using hb
      · rcases ih h2 with h3 | ⟨s, hs, hc⟩
        · exact Or.inl h3
        · exact Or.inr ⟨s, by simp [hs], hc⟩

/-- C4: sanitization only ever emits `[a-z0-9_-]`: uppercase is lowered,
everything else becomes `_`; hence no sanitized segment contains `/` or `.`,
and a slash-join of sanitized segments contains only `[a-z0-9_-]` and `/`. -/
theorem sanitizeName_allowed (name : String) (segs : List String) :
    (∀ c ∈ (sanitizeName name).data, lowerAllowed c = true) ∧
    ('/' ∉ (sanitizeName name).data ∧ '.' ∉ (sanitizeName name).data) ∧
    (∀ c ∈ (joinSlash (segs.map sanitizeName)).data,
      lowerAllowed c = true ∨ c = '/') := by
  have hmem : ∀ (nm : String), ∀ c ∈ (sanitizeName nm).data, lowerAllowed c = true := by
    intro nm c hc
    unfold sanitizeName at hc
    rcases List.mem_map.mp hc with ⟨a, _, rfl⟩
    exact sanChar_allowed a
  refine ⟨hmem name, ⟨?_, ?_⟩, ?_⟩
  · intro h
    exact absurd (hmem name '/' h) (by decide)
  · intro h
    exact absurd (hmem name '.' h) (by decide)
  · intro c hc
    rcases mem_joinSlash_data hc with h | ⟨s, hs, hcs⟩
    · exact Or.inr h
    · rcases List.mem_map.mp hs with ⟨t, _, rfl⟩
      exact Or.inl (hmem t c hcs)

theorem sanitizeName_allowed_witness :
    lowerAllowed (sanChar '#') = true ∧ '/' ∉ (sanitizeName "../A b").data :=
  ⟨(sanitizeName_allowed "#" []).1 (sanChar '#') (by decide),
   (sanitizeName_allowed "../A b" []).2.1.1⟩

theorem filter_idem {α} (p : α → Bool) (l : List α) :
    (l.filter p).filter p = l.filter p := by
  induction l with
  | nil => rfl
  | cons x xs ih =>
    by_cases h : p x = true <;> simp [List.filter_cons, h, ih]

theorem s3Delete_idem (s3 : S3State) (k : String) :
    s3Delete (s3Delete s3 k) k = s3Delete s3 k := filter_idem _ _

theorem fsExistsFile_unlink (fs : LocalFS) (p : String) :
    fsExistsFile (fsUnlink fs p) p = false := by
  unfold fsExistsFile fsUnlink
  rw [List.any_eq_false]
  intro f hf
  rcases List.mem_filter.mp hf with ⟨_, hne⟩
  simpa using hne

/-- Branch lemma: remote mode, `/uploads/file/`-shaped reference. -/
theorem deleteFile_remote_proxy (f : Bool) (fileUrl : String) (w : World)
    (h : strStarts fileUrl "/uploads/file/" = true) :
    deleteFile .remote f fileUrl w =
      if f then (w, .ok ())
      else ({ w with s3 := s3Delete w.s3 (jsReplaceFirst fileUrl "/uploads/file/") }, .ok ()) := by
  unfold deleteFile
  simp [h]

/-- Branch lemma: remote mode, legacy absolute-URL reference. -/
theorem deleteFile_remote_http (f : Bool) (fileUrl : String) (w : World)
    (h1 : strStarts fileUrl "/uploads/file/" = false)
    (h2 : strStarts fileUrl "http" = true) :
    deleteFile .remote f fileUrl w =
      if f then (w, .ok ())
      else match urlKeyOf fileUrl with
        | none => (w, .ok ())
        | some key => ({ w with s3 := s3Delete w.s3 key }, .ok ()) := by
  unfold deleteFile
  simp [h1, h2]

/-- Branch lemma: local mode always takes the filesystem branch. -/
theorem deleteFile_local_eq (f : Bool) (fileUrl : String) (w : World) :
    deleteFile .local f fileUrl w =
      if f then (w, .ok ())
      else
        if fsExistsFile w.fs (uploadsDir ++ "/" ++ stripUploads fileUrl) then
          ({ w with fs := fsUnlink w.fs (uploadsDir ++ "/" ++ stripUploads fileUrl) }, .ok ())
        else (w, .ok ()) := by
  unfold deleteFile
  simp

/-- Branch lemma: remote mode, reference of neither special shape falls back
to the filesystem branch. -/
theorem deleteFile_remote_other (f : Bool) (fileUrl : String) (w : World)
    (h1 : strStarts fileUrl "/uploads/file/" = false)
    (h2 : strStarts fileUrl "http" = false) :
    deleteFile .remote f fileUrl w =
      if f then (w, .ok ())
      else
        if fsExistsFile w.fs (uploadsDir ++ "/" ++ stripUploads fileUrl) then
          ({ w with fs := fsUnlink w.fs (uploadsDir ++ "/" ++ stripUploads fileUrl) }, .ok ())
        else (w, .ok ()) := by
  unfold deleteFile
  simp [h1, h2]

/-- C5: `deleteFile` is fire-and-forget: whatever the reference, the mode
and whether the backend/filesystem throws, the call resolves (never
propagates an error to the caller), and repeating the delete of the same
reference also resolves and leaves the state unchanged (a no-op). -/
theorem deleteFile_best_effort (mode : Mode) (f1 f2 : Bool) (fileUrl : String)
    (w : World) :
    (deleteFile mode f1 fileUrl w).2 = .ok () ∧
    (deleteFile mode f2 fileUrl (deleteFile mode f1 fileUrl w).1).2 = .ok () ∧
    deleteFile mode false fileUrl (deleteFile mode false fileUrl w).1 =
      ((deleteFile mode false fileUrl w).1, .ok ()) := by
  have hok : ∀ (f : Bool) (w' : World), (deleteFile mode f fileUrl w').2 = .ok () := by
    intro f w'
    cases mode with
    | remote =>
      by_cases h1 : strStarts fileUrl "/uploads/file/" = true
      · rw [deleteFile_remote_proxy f fileUrl w' h1]
        split <;> rfl
      · rw [Bool.not_eq_true] at h1
        by_cases h2 : strStarts fileUrl "http" = true
        · rw [deleteFile_remote_http f fileUrl w' h1 h2]
          split
          · rfl
          · split <;> rfl
        · rw [Bool.not_eq_true] at h2
          rw [deleteFile_remote_other f fileUrl w' h1 h2]
          split
          · rfl
          · split <;> rfl
    | _ =>
      rw [deleteFile_local_eq f fileUrl w']
      split
      · rfl
      · split <;> rfl
  refine ⟨hok f1 w, hok f2 _, ?_⟩
  cases mode with
  | remote =>
    by_cases h1 : strStarts fileUrl "/uploads/file/" = true
    · rw [deleteFile_remote_proxy false fileUrl w h1,
          deleteFile_remote_proxy false fileUrl _ h1]
      simp [s3Delete_idem]
    · rw [Bool.not_eq_true] at h1
      by_cases h2 : strStarts fileUrl "http" = true
      · rw [deleteFile_remote_http false fileUrl w h1 h2,
            deleteFile_remote_http false fileUrl _ h1 h2]
        cases hk : urlKeyOf fileUrl <;> simp [hk, s3Delete_idem]
      · rw [Bool.not_eq_true] at h2
        rw [deleteFile_remote_other false fileUrl w h1 h2,
            deleteFile_remote_other false fileUrl _ h1 h2]
        by_cases hex : fsExistsFile w.fs (uploadsDir ++ "/" ++ stripUploads fileUrl) = true
        · simp [hex, fsExistsFile_unlink]
        · simp [hex]
  | _ =>
    rw [deleteFile_local_eq false fileUrl w, deleteFile_local_eq false fileUrl _]
    by_cases hex : fsExistsFile w.fs (uploadsDir ++ "/" ++ stripUploads fileUrl) = true
    · simp [hex, fsExistsFile_unlink]
    · simp [hex]

/-! ## Head-mismatch lemmas for reference shapes -/

theorem isPre_append_cancel (a p s : List Char) :
    isPre (a ++ p) (a ++ s) = isPre p s := by
  induction a with
  | nil => rfl
  | cons c cs ih => simp [isPre, ih]

theorem strStarts_append_both (a p s : String) :
    strStarts (a ++ s) (a ++ p) = strStarts s p := by
  unfold strStarts
  rw [str_data_append, str_data_append, isPre_append_cancel]

theorem starts_head (s pre : String) (c : Char) (cs : List Char)
    (hpre : pre.data = c :: cs) (h : strStarts s pre = true) :
    ∃ t, s.data = c :: t := by
  unfold strStarts at h
  rw [hpre] at h
  cases hd : s.data with
  | nil => rw [hd] at h; exact absurd h (by simp [isPre])
  | cons b bs =>
    rw [hd] at h
    simp only [isPre, Bool.and_eq_true, beq_iff_eq] at h
    exact ⟨bs, by rw [h.1]⟩

theorem strStarts_ne_first (s pre : String) (a b : Char) (ta : List Char)
    (tb : List Char) (hs : s.data = a :: ta) (hp : pre.data = b :: tb)
    (hne : b ≠ a) : strStarts s pre = false := by
  unfold strStarts
  rw [hs, hp]
  simp [isPre, beq_iff_eq, hne]

/-- C10: in local mode, a legacy absolute `http...` reference is a silent
no-op for `deleteFile`: the anchored `/uploads/` strip does not match (the
reference is returned unchanged), the resolved path exists for no file when
the store only holds files under the two base namespaces, nothing is deleted
and no error is raised. -/
theorem deleteFile_local_http_noop (flag : Bool) (fileUrl : String) (w : World)
    (hu : strStarts fileUrl "http" = true)
    (hw : ∀ f ∈ w.fs.files,
        strStarts f.1 (uploadsDir ++ "/avatars/") = true ∨
        strStarts f.1 (uploadsDir ++ "/attachments/") = true) :
    stripUploads fileUrl = fileUrl ∧
    deleteFile .local flag fileUrl w = (w, .ok ()) := by
  obtain ⟨t, ht⟩ := starts_head fileUrl "http" 'h' ['t', 't', 'p'] rfl hu
  have hnot : strStarts fileUrl "/uploads/" = false :=
    strStarts_ne_first fileUrl "/uploads/" 'h' '/' t _ ht rfl (by decide)
  have hstrip : stripUploads fileUrl = fileUrl := by
    unfold stripUploads
    rw [hnot]
    simp
  have hnex : fsExistsFile w.fs (uploadsDir ++ "/" ++ stripUploads fileUrl) = false := by
    rw [hstrip]
    unfold fsExistsFile
    rw [List.any_eq_false]
    intro f hf
    simp only [decide_eq_true_eq]
    intro heq
    rcases hw f hf with hav | hat
    · rw [heq] at hav
      rw [show uploadsDir ++ "/avatars/" = (uploadsDir ++ "/") ++ "avatars/" by
        apply str_ext
        rw [str_data_append, str_data_append, str_data_append, List.append_assoc]
        exact congrArg (uploadsDir.data ++ ·) (by decide)] at hav
      rw [strStarts_append_both] at hav
      rw [strStarts_ne_first fileUrl "avatars/" 'h' 'a' t _ ht rfl (by decide)] at hav
      exact absurd hav (by decide)
    · rw [heq] at hat
      rw [show uploadsDir ++ "/attachments/" = (uploadsDir ++ "/") ++ "attachments/" by
        apply str_ext
        rw [str_data_append, str_data_append, str_data_append, List.append_assoc]
        exact congrArg (uploadsDir.data ++ ·) (by decide)] at hat
      rw [strStarts_append_both] at hat
      rw [strStarts_ne_first fileUrl "attachments/" 'h' 'a' t _ ht rfl (by decide)] at hat
      exact absurd hat (by decide)
  refine ⟨hstrip, ?_⟩
  rw [deleteFile_local_eq flag fileUrl w]
  cases flag with
  | true => rfl
  | false => simp [hnex]

theorem deleteFile_local_http_noop_witness :
    deleteFile .local false "http://legacy.example.com/uploads/avatars/a.webp"
      ⟨[], ⟨[(uploadsDir ++ "/avatars/old.webp", [1])], [uploadsDir]⟩⟩ =
      (⟨[], ⟨[(uploadsDir ++ "/avatars/old.webp", [1])], [uploadsDir]⟩⟩, .ok ()) :=
  (deleteFile_local_http_noop false "http://legacy.example.com/uploads/avatars/a.webp"
    ⟨[], ⟨[(uploadsDir ++ "/avatars/old.webp", [1])], [uploadsDir]⟩⟩
    (by decide) (by decide)).2

/-! ## Write-path lemmas -/

theorem s3Lookup_put_self (s3 : S3State) (k : String) (o : S3Object) :
    s3Lookup (s3Put s3 k o) k = some o := by
  unfold s3Lookup s3Put
  simp [List.find?]

/-- Bytes stored at path `p` (the lazy read stream source). -/
def fsRead (fs : LocalFS) (p : String) : Option Bytes :=
  (fs.files.find? (fun f => f.1 = p)).map (·.2)

theorem fsRead_write_self (fs : LocalFS) (p : String) (b : Bytes) :
    fsRead (fsWrite fs p b) p = some b := by
  unfold fsRead fsWrite
  simp [List.find?]

/-- C8: a failing backend write makes `saveAvatar`/`saveAttachment` throw to
the caller — no reference is produced; with a successful write the stored
object/file really holds the uploaded bytes at the generated key/path. -/
theorem save_write_semantics (mode : Mode) (uuid : String) (buf : Bytes)
    (file : FileBlob) (segs : List String) (w : World) :
    (saveAvatar mode true uuid buf w).2 = .error .writeError ∧
    (saveAttachment mode true uuid file segs w).2 = .error .writeError ∧
    s3Lookup (saveAvatar .remote false uuid buf w).1.s3
      ("avatars/" ++ ("avatar-" ++ uuid ++ ".webp")) = some ⟨buf, some "image/webp"⟩ ∧
    fsRead (saveAvatar .local false uuid buf w).1.fs
      (uploadsDir ++ "/avatars/" ++ ("avatar-" ++ uuid ++ ".webp")) = some buf ∧
    s3Lookup (saveAttachment .remote false uuid file segs w).1.s3
      ("attachments/" ++ joinSlash (segs.map sanitizeName) ++ "/" ++
        (uuid ++ "-" ++ file.originalname)) = some ⟨file.buffer, some file.mimetype⟩ ∧
    fsRead (saveAttachment .local false uuid file segs w).1.fs
      (uploadsDir ++ "/" ++ joinSlash ("attachments" :: segs.map sanitizeName) ++ "/" ++
        (uuid ++ "-" ++ file.originalname)) = some file.buffer := by
  refine ⟨?_, ?_, ?_, ?_, ?_, ?_⟩
  · cases mode <;> rfl
  · cases mode <;> rfl
  · exact s3Lookup_put_self _ _ _
  · exact fsRead_write_self _ _ _
  · exact s3Lookup_put_self _ _ _
  · exact fsRead_write_self _ _ _

/-! ## Attachment contract (C6) -/

theorem local_url_template (S : List String) (fn : String) (hS : S ≠ []) :
    "/" ++ joinSlash ("uploads" :: "attachments" :: (S ++ [fn])) =
    "/uploads/attachments/" ++ joinSlash S ++ "/" ++ fn := by
  rw [joinSlash_cons "uploads" ("attachments" :: (S ++ [fn])) (by simp),
    joinSlash_cons "attachments" (S ++ [fn]) (by simp),
    joinSlash_append_last S fn hS]
  apply str_ext
  simp [str_data_append, List.append_assoc]

/-- C6: `saveAttachment` classifies the result IMAGE exactly when the
declared MIME type starts with `image/`, echoes the original filename,
stores the bytes unmodified under
`attachments/<sanitized-segments>/<uuid>-<originalname>`, and returns
`/uploads/file/<key>` in remote mode resp.
`/uploads/attachments/<sanitized-segments>/<uuid>-<originalname>` in local
mode (template form stated for non-empty segment lists). -/
theorem saveAttachment_contract (uuid : String) (file : FileBlob)
    (segs : List String) (w : World) :
    (∀ r, (saveAttachment .remote false uuid file segs w).2 = .ok r →
      (r.type = "IMAGE" ↔ strStarts file.mimetype "image/" = true) ∧
      r.filename = file.originalname ∧
      r.url = "/uploads/file/" ++ ("attachments/" ++ joinSlash (segs.map sanitizeName) ++
        "/" ++ (uuid ++ "-" ++ file.originalname))) ∧
    (∀ r, (saveAttachment .local false uuid file segs w).2 = .ok r →
      (r.type = "IMAGE" ↔ strStarts file.mimetype "image/" = true) ∧
      r.filename = file.originalname ∧
      r.url = "/" ++ joinSlash ("uploads" :: "attachments" ::
        (segs.map sanitizeName ++ [uuid ++ "-" ++ file.originalname])) ∧
      (segs ≠ [] → r.url = "/uploads/attachments/" ++ joinSlash (segs.map sanitizeName) ++
        "/" ++ (uuid ++ "-" ++ file.originalname))) ∧
    (∃ r, (saveAttachment .remote false uuid file segs w).2 = .ok r) ∧
    (∃ r, (saveAttachment .local false uuid file segs w).2 = .ok r) ∧
    s3Lookup (saveAttachment .remote false uuid file segs w).1.s3
      ("attachments/" ++ joinSlash (segs.map sanitizeName) ++ "/" ++
        (uuid ++ "-" ++ file.originalname)) = some ⟨file.buffer, some file.mimetype⟩ ∧
    fsRead (saveAttachment .local false uuid file segs w).1.fs
      (uploadsDir ++ "/" ++ joinSlash ("attachments" :: segs.map sanitizeName) ++ "/" ++
        (uuid ++ "-" ++ file.originalname)) = some file.buffer := by
  have hrem : (saveAttachment .remote false uuid file segs w).2 =
      .ok ⟨"/uploads/file/" ++ ("attachments/" ++ joinSlash (segs.map sanitizeName) ++
        "/" ++ (uuid ++ "-" ++ file.originalname)),
        if strStarts file.mimetype "image/" then "IMAGE" else "FILE",
        file.originalname⟩ := rfl
  have hloc : (saveAttachment .local false uuid file segs w).2 =
      .ok ⟨"/" ++ joinSlash ("uploads" :: "attachments" ::
        (segs.map sanitizeName ++ [uuid ++ "-" ++ file.originalname])),
        if strStarts file.mimetype "image/" then "IMAGE" else "FILE",
        file.originalname⟩ := rfl
  have htype : ((if strStarts file.mimetype "image/" then "IMAGE" else "FILE") = "IMAGE" ↔
      strStarts file.mimetype "image/" = true) := by
    by_cases him : strStarts file.mimetype "image/" = true
    · rw [if_pos him]
      exact iff_of_true rfl him
    · rw [if_neg him]
      exact iff_of_false (by decide) him
  refine ⟨?_, ?_, ⟨_, hrem⟩, ⟨_, hloc⟩, s3Lookup_put_self _ _ _, fsRead_write_self _ _ _⟩
  · intro r hr
    rw [hrem] at hr
    injection hr with h
    subst h
    exact ⟨htype, rfl, rfl⟩
  · intro r hr
    rw [hloc] at hr
    injection hr with h
    subst h
    refine ⟨htype, rfl, rfl, ?_⟩
    intro hne
    exact local_url_template (segs.map sanitizeName) (uuid ++ "-" ++ file.originalname)
      (by simpa using hne)

theorem saveAttachment_contract_witness :
    (saveAttachment .local false "u1" ⟨[104, 101, 108, 108, 111], "text/plain", "notes.txt"⟩
      ["Project A", "Task#1"] ⟨[], ⟨[], []⟩⟩).2 =
      .ok ⟨"/uploads/attachments/project_a/task_1/u1-notes.txt", "FILE", "notes.txt"⟩ ∧
    ("FILE" = "IMAGE" ↔ strStarts "text/plain" "image/" = true) :=
  ⟨by decide,
   ((saveAttachment_contract "u1" ⟨[104, 101, 108, 108, 111], "text/plain", "notes.txt"⟩
      ["Project A", "Task#1"] ⟨[], ⟨[], []⟩⟩).2.1
     ⟨"/uploads/attachments/project_a/task_1/u1-notes.txt", "FILE", "notes.txt"⟩
     (by decide)).1⟩

/-! ## Folder deletion (C3) -/

theorem isPre_exists {p s : List Char} (h : isPre p s = true) : ∃ t, s = p ++ t := by
  induction p generalizing s with
  | nil => exact ⟨s, rfl⟩
  | cons a as ih =>
    cases s with
    | nil => simp [isPre] at h
    | cons b bs =>
      simp only [isPre, Bool.and_eq_true, beq_iff_eq] at h
      rcases ih h.2 with ⟨t, ht⟩
      exact ⟨t, by rw [h.1, ht]; rfl⟩

theorem path_under_pfx (S : List String) (key : String)
    (hkey : strStarts key ("attachments/" ++ joinSlash S ++ "/") = true) :
    strStarts (uploadsDir ++ "/" ++ key)
      ((uploadsDir ++ "/" ++ joinSlash ("attachments" :: S)) ++ "/") = true := by
  obtain ⟨t, ht⟩ := isPre_exists hkey
  have hext : ∃ ext, (uploadsDir ++ "/" ++ key).data =
      ((uploadsDir ++ "/" ++ joinSlash ("attachments" :: S)) ++ "/").data ++ ext := by
    cases S with
    | nil =>
      refine ⟨'/' :: t, ?_⟩
      rw [show joinSlash ("attachments" :: ([] : List String)) = "attachments" from rfl]
      simp [str_data_append, List.append_assoc, ht,
        show joinSlash ([] : List String) = "" from rfl]
    | cons s ss =>
      refine ⟨t, ?_⟩
      rw [joinSlash_cons "attachments" (s :: ss) (by simp)]
      simp [str_data_append, List.append_assoc, ht]
  obtain ⟨ext, hx⟩ := hext
  unfold strStarts
  rw [hx]
  exact isPre_self_append _ _

theorem fsRmTree_no_under (fs : LocalFS) (root p : String)
    (hp : strStarts p (root ++ "/") = true) :
    fsRead (fsRmTree fs root) p = none ∧ fsExistsDir (fsRmTree fs root) p = false := by
  constructor
  · unfold fsRead fsRmTree
    rw [List.find?_eq_none.mpr]
    · rfl
    · intro f hf
      rcases List.mem_filter.mp hf with ⟨_, hcond⟩
      simp only [decide_eq_true_eq, Bool.or_eq_true, not_or] at hcond
      simp only [decide_eq_true_eq]
      intro heq
      rw [heq] at hcond
      exact absurd hp hcond.2
  · unfold fsExistsDir fsRmTree
    rw [List.any_eq_false]
    intro d hd
    rcases List.mem_filter.mp hd with ⟨_, hcond⟩
    simp only [decide_eq_true_eq, Bool.or_eq_true, not_or] at hcond
    simp only [decide_eq_true_eq]
    intro heq
    rw [heq] at hcond
    exact absurd hp hcond.2

theorem getFileStream_local_notFound (w : World) (key : String)
    (hf : fsRead w.fs (uploadsDir ++ "/" ++ key) = none)
    (hd : fsExistsDir w.fs (uploadsDir ++ "/" ++ key) = false) :
    getFileStream .local key w = .error .notFound := by
  unfold getFileStream
  unfold fsRead at hf
  rw [Option.map_eq_none'] at hf
  dsimp only
  rw [hf, hd]
  simp

theorem getFileStream_remote_notFound (w : World) (key : String)
    (h : s3Lookup w.s3 key = none) : getFileStream .remote key w = .error .notFound := by
  unfold getFileStream
  rw [h]

/-- C3 counterexample input: with a backend page cap of 1 and two objects
under the prefix, `deleteFolder` deletes only the listed page; a key under
the prefix survives and still streams. -/
theorem deleteFolder_pagination_counterexample :
    strStarts "attachments/a/f2"
      ("attachments/" ++ joinSlash (["a"].map sanitizeName) ++ "/") = true ∧
    getFileStream .remote "attachments/a/f2"
      (deleteFolder .remote 1 ["a"]
        ⟨[("attachments/a/f1", ⟨[1], none⟩), ("attachments/a/f2", ⟨[2], none⟩)],
          ⟨[], []⟩⟩) ≠ .error .notFound := by
  decide

/-- C3 (amended): `deleteFolder` in remote mode issues one unpaginated list
request and batch-deletes exactly the returned page: when nothing matches
the prefix it is a no-op, and whenever all matching keys fit in the backend
page it removes them all, so any key under the prefix subsequently fails
with NotFound; in local mode it recursively removes the directory tree if
present (afterwards keys under the prefix fail with NotFound, given the
filesystem coherence hypothesis) and is a no-op when absent. -/
theorem deleteFolder_spec (cap : Nat) (segs : List String) (key : String) (w : World) :
    ((∀ e ∈ w.s3, strStarts e.1
        ("attachments/" ++ joinSlash (segs.map sanitizeName) ++ "/") = false) →
      deleteFolder .remote cap segs w = w) ∧
    (((w.s3.map (fun e => e.1)).filter (fun k => strStarts k
        ("attachments/" ++ joinSlash (segs.map sanitizeName) ++ "/"))).length ≤ cap →
      strStarts key ("attachments/" ++ joinSlash (segs.map sanitizeName) ++ "/") = true →
      getFileStream .remote key (deleteFolder .remote cap segs w) = .error .notFound) ∧
    (fsExists w.fs (uploadsDir ++ "/" ++ joinSlash ("attachments" :: segs.map sanitizeName)) = false →
      deleteFolder .local cap segs w = w) ∧
    ((∀ p, fsExistsFile w.fs p = true ∨ fsExistsDir w.fs p = true →
        strStarts p ((uploadsDir ++ "/" ++ joinSlash ("attachments" :: segs.map sanitizeName)) ++ "/") = true →
        fsExists w.fs (uploadsDir ++ "/" ++ joinSlash ("attachments" :: segs.map sanitizeName)) = true) →
      strStarts key ("attachments/" ++ joinSlash (segs.map sanitizeName) ++ "/") = true →
      getFileStream .local key (deleteFolder .local cap segs w) = .error .notFound) := by
  refine ⟨?_, ?_, ?_, ?_⟩
  · -- remote no-op when nothing matches
    intro hnone
    unfold deleteFolder s3ListPage
    dsimp only
    have hfil : (w.s3.map (fun e => e.1)).filter (fun k => strStarts k
        ("attachments/" ++ joinSlash (segs.map sanitizeName) ++ "/")) = [] := by
      apply List.filter_eq_nil_iff.mpr
      intro k hk
      rcases List.mem_map.mp hk with ⟨e, he, rfl⟩
      simp [hnone e he]
    rw [hfil]
    simp
  · -- remote: all matches fit in one page
    intro hlen hkey
    apply getFileStream_remote_notFound
    unfold deleteFolder s3ListPage
    dsimp only
    rw [List.take_of_length_le hlen]
    cases hm : (w.s3.map (fun e => e.1)).filter (fun k => strStarts k
        ("attachments/" ++ joinSlash (segs.map sanitizeName) ++ "/")) with
    | nil =>
      simp only [List.length_nil, gt_iff_lt, lt_irrefl, if_false]
      unfold s3Lookup
      rw [List.find?_eq_none.mpr]
      · rfl
      · intro e he
        simp only [decide_eq_true_eq]
        intro heq
        have : e.1 ∈ (w.s3.map (fun x => x.1)).filter (fun k => strStarts k
            ("attachments/" ++ joinSlash (segs.map sanitizeName) ++ "/")) :=
          List.mem_filter.mpr ⟨List.mem_map.mpr ⟨e, he, rfl⟩, by rw [heq]; exact hkey⟩
        rw [hm] at this
        cases this
    | cons m ms =>
      simp only [List.length_cons, gt_iff_lt, Nat.succ_pos, if_true]
      unfold s3Lookup s3DeleteMany
      rw [List.find?_eq_none.mpr]
      · rfl
      · intro e he
        rcases List.mem_filter.mp he with ⟨hmem, hnc⟩
        simp only [decide_eq_true_eq]
        intro heq
        have hin : e.1 ∈ (w.s3.map (fun x => x.1)).filter (fun k => strStarts k
            ("attachments/" ++ joinSlash (segs.map sanitizeName) ++ "/")) :=
          List.mem_filter.mpr ⟨List.mem_map.mpr ⟨e, hmem, rfl⟩, by rw [heq]; exact hkey⟩
        rw [hm] at hin
        have helem : (m :: ms).contains e.1 = true := List.elem_eq_true_of_mem hin
        simp only [decide_eq_true_eq] at hnc
        exact hnc helem
  · -- local no-op when absent
    intro hnex
    unfold deleteFolder
    simp [hnex]
  · -- local: everything under the prefix is gone afterwards
    intro hcoh hkey
    have hstart := path_under_pfx (segs.map sanitizeName) key hkey
    by_cases hex : fsExists w.fs
        (uploadsDir ++ "/" ++ joinSlash ("attachments" :: segs.map sanitizeName)) = true
    · have hdf : deleteFolder .local cap segs w =
          { w with fs := (fsRmTree w.fs
            (uploadsDir ++ "/" ++ joinSlash ("attachments" :: segs.map sanitizeName))) } := by
        unfold deleteFolder
        simp [hex]
      rw [hdf]
      obtain ⟨hf, hd⟩ := fsRmTree_no_under w.fs
        (uploadsDir ++ "/" ++ joinSlash ("attachments" :: segs.map sanitizeName))
        (uploadsDir ++ "/" ++ key) hstart
      exact getFileStream_local_notFound _ _ hf hd
    · have hdf : deleteFolder .local cap segs w = w := by
        unfold deleteFolder
        simp [Bool.not_eq_true] at hex
        simp [hex]
      rw [hdf]
      apply getFileStream_local_notFound
      · unfold fsRead
        rw [Option.map_eq_none']
        rw [List.find?_eq_none.mpr]
        intro f hf
        simp only [decide_eq_true_eq]
        intro heq
        apply hex
        apply hcoh (uploadsDir ++ "/" ++ key)
        · exact Or.inl (by unfold fsExistsFile; rw [List.any_eq_true]; exact ⟨f, hf, by simp [heq]⟩)
        · exact hstart
      · unfold fsExistsDir
        rw [List.any_eq_false]
        intro d hd
        simp only [decide_eq_true_eq]
        intro heq
        apply hex
        apply hcoh (uploadsDir ++ "/" ++ key)
        · exact Or.inr (by unfold fsExistsDir; rw [List.any_eq_true]; exact ⟨d, hd, by simp [heq]⟩)
        · exact hstart

theorem deleteFolder_spec_witness :
    deleteFolder .remote 1000 ["a"] ⟨[], ⟨[], []⟩⟩ = ⟨[], ⟨[], []⟩⟩ ∧
    getFileStream .remote "attachments/a/f1"
      (deleteFolder .remote 1000 ["a"]
        ⟨[("attachments/a/f1", ⟨[1], none⟩)], ⟨[], []⟩⟩) = .error .notFound ∧
    deleteFolder .local 1000 ["a"] ⟨[], ⟨[], []⟩⟩ = ⟨[], ⟨[], []⟩⟩ ∧
    getFileStream .local "attachments/a/x" (deleteFolder .local 1000 ["a"] ⟨[], ⟨[], []⟩⟩) =
      .error .notFound := by
  have h0 := deleteFolder_spec 1000 ["a"] "attachments/a/x" ⟨[], ⟨[], []⟩⟩
  have h1 := deleteFolder_spec 1000 ["a"] "attachments/a/f1"
    ⟨[("attachments/a/f1", ⟨[1], none⟩)], ⟨[], []⟩⟩
  refine ⟨h0.1 (by decide), h1.2.1 (by decide) (by decide), h0.2.2.1 (by decide), ?_⟩
  apply h0.2.2.2 ?_ (by decide)
  intro p hp
  rcases hp with hcase | hcase <;> simp [fsExistsFile, fsExistsDir] at hcase

/-! ## Read path (C7) and controller routes (C9) -/

/-- C7 counterexample input: in local mode, right after construction the
`avatars` BASE DIRECTORY exists; `getFileStream "avatars"` passes the
`existsSync` check and returns a stream (over a directory) although no
regular file exists at the resolved path — it does not fail with NotFound,
contradicting the claimed "NotFound iff no existing file" equivalence. -/
theorem getFileStream_dir_counterexample :
    fsExistsFile (initGateway ⟨none, none, none, none, none⟩ ⟨[], []⟩).2
      (uploadsDir ++ "/" ++ "avatars") = false ∧
    getFileStream .local "avatars"
      ⟨[], (initGateway ⟨none, none, none, none, none⟩ ⟨[], []⟩).2⟩ ≠
      .error .notFound := by
  decide

theorem fsExistsFile_of_find?_some (fs : LocalFS) (p : String) (f : String × Bytes)
    (h : fs.files.find? (fun f => f.1 = p) = some f) : fsExistsFile fs p = true := by
  unfold fsExistsFile
  rw [List.any_eq_true]
  refine ⟨f, List.mem_of_find?_eq_some h, ?_⟩
  have := List.find?_some h
  simpa using this

theorem fsExistsFile_of_find?_none (fs : LocalFS) (p : String)
    (h : fs.files.find? (fun f => f.1 = p) = none) : fsExistsFile fs p = false := by
  unfold fsExistsFile
  rw [List.any_eq_false]
  intro f hf
  have := List.find?_eq_none.mp h f hf
  simpa using this

/-- C7 (amended): `getFileStream` fails with NotFound exactly when nothing
exists for the key — no object in remote mode, neither a regular file nor a
directory at the resolved path in local mode. On an existing object/file it
returns the stored bytes, with the backend-recorded content type (falling
back to `application/octet-stream` when absent or empty) in remote mode and
always `application/octet-stream` in local mode. A directory at the
resolved local path passes the existence check: the call returns a
directory-backed stream, not NotFound. -/
theorem getFileStream_spec (key : String) (w : World) :
    (getFileStream .remote key w = .error .notFound ↔ s3Lookup w.s3 key = none) ∧
    (∀ obj, s3Lookup w.s3 key = some obj →
      getFileStream .remote key w = .ok (.fileBytes obj.body, ctOrDefault obj.contentType)) ∧
    (getFileStream .local key w = .error .notFound ↔
      fsExists w.fs (uploadsDir ++ "/" ++ key) = false) ∧
    (∀ b, fsRead w.fs (uploadsDir ++ "/" ++ key) = some b →
      getFileStream .local key w = .ok (.fileBytes b, "application/octet-stream")) ∧
    (fsRead w.fs (uploadsDir ++ "/" ++ key) = none →
      fsExistsDir w.fs (uploadsDir ++ "/" ++ key) = true →
      getFileStream .local key w = .ok (.dirStream, "application/octet-stream")) := by
  refine ⟨?_, ?_, ?_, ?_, ?_⟩
  · cases hlk : s3Lookup w.s3 key with
    | none => simp [getFileStream, hlk]
    | some o => simp [getFileStream, hlk]
  · intro obj ho
    unfold getFileStream
    rw [ho]
  · cases hf : w.fs.files.find? (fun f => f.1 = uploadsDir ++ "/" ++ key) with
    | some f =>
      have hfile := fsExistsFile_of_find?_some w.fs _ f hf
      apply iff_of_false
      · unfold getFileStream
        dsimp only
        rw [hf]
        simp
      · unfold fsExists
        simp [hfile]
    | none =>
      have hfile := fsExistsFile_of_find?_none w.fs _ hf
      by_cases hd : fsExistsDir w.fs (uploadsDir ++ "/" ++ key) = true
      · apply iff_of_false
        · unfold getFileStream
          dsimp only
          rw [hf, hd]
          simp
        · unfold fsExists
          simp [hd]
      · rw [Bool.not_eq_true] at hd
        apply iff_of_true
        · unfold getFileStream
          dsimp only
          rw [hf, hd]
          simp
        · unfold fsExists
          simp [hfile, hd]
  · intro b hb
    unfold fsRead at hb
    rcases Option.map_eq_some'.mp hb with ⟨f, hf, hfb⟩
    unfold getFileStream
    dsimp only
    rw [hf]
    simp [hfb]
  · intro hnone hd
    unfold fsRead at hnone
    rw [Option.map_eq_none'] at hnone
    unfold getFileStream
    dsimp only
    rw [hnone, hd]
    simp

theorem getFileStream_spec_witness :
    getFileStream .remote "k" ⟨[("k", ⟨[7], some ""⟩)], ⟨[], []⟩⟩ =
      .ok (.fileBytes [7], ctOrDefault (some "")) ∧
    getFileStream .local "avatars/a.webp"
      ⟨[], ⟨[(uploadsDir ++ "/" ++ "avatars/a.webp", [8])], []⟩⟩ =
      .ok (.fileBytes [8], "application/octet-stream") ∧
    getFileStream .local "avatars" ⟨[], ⟨[], [uploadsDir ++ "/" ++ "avatars"]⟩⟩ =
      .ok (.dirStream, "application/octet-stream") := by
  have h1 := getFileStream_spec "k" ⟨[("k", ⟨[7], some ""⟩)], ⟨[], []⟩⟩
  have h2 := getFileStream_spec "avatars/a.webp"
    ⟨[], ⟨[(uploadsDir ++ "/" ++ "avatars/a.webp", [8])], []⟩⟩
  have h3 := getFileStream_spec "avatars" ⟨[], ⟨[], [uploadsDir ++ "/" ++ "avatars"]⟩⟩
  exact ⟨h1.2.1 ⟨[7], some ""⟩ (by decide), h2.2.2.2.1 [8] (by decide),
    h3.2.2.2.2 (by decide) (by decide)⟩

/-- C9: both legacy read routes prepend their fixed namespace and delegate
to the same streaming path as the primary wildcard route; a NotFound from
`getFileStream` is answered as a 404. -/
theorem legacy_routes (mode : Mode) (filename key : String)
    (parts keyParts : List String) (w : World) :
    getAvatar mode filename w = streamFile mode ("avatars/" ++ filename) w ∧
    getAvatar mode filename w = getFile mode ["avatars", filename] w ∧
    getAttachment mode parts w = streamFile mode ("attachments/" ++ joinSlash parts) w ∧
    (parts ≠ [] → getAttachment mode parts w = getFile mode ("attachments" :: parts) w) ∧
    (getFileStream mode (joinSlash keyParts) w = .error .notFound →
      getFile mode keyParts w = .notFound404) ∧
    (getFileStream mode key w = .error .notFound → streamFile mode key w = .notFound404) := by
  have hstream : ∀ (k : String), getFileStream mode k w = .error .notFound →
      streamFile mode k w = .notFound404 := by
    intro k hk
    unfold streamFile
    rw [hk]
  refine ⟨rfl, ?_, rfl, ?_, fun h => hstream _ h, fun h => hstream _ h⟩
  · unfold getAvatar getFile
    have : ("avatars/" ++ filename) = joinSlash ["avatars", filename] := by
      apply str_ext
      simp [str_data_append, show joinSlash [filename] = filename from rfl,
        show joinSlash ["avatars", filename] = "avatars" ++ "/" ++ filename from rfl]
    rw [this]
  · intro hne
    unfold getAttachment getFile
    have : ("attachments/" ++ joinSlash parts) = joinSlash ("attachments" :: parts) := by
      rw [joinSlash_cons "attachments" parts hne]
      apply str_ext
      simp [str_data_append, List.append_assoc]
    rw [this]

theorem legacy_routes_witness :
    getAttachment .local ["p", "f.txt"] ⟨[], ⟨[], []⟩⟩ =
      getFile .local ["attachments", "p", "f.txt"] ⟨[], ⟨[], []⟩⟩ ∧
    getFile .local ["avatars", "missing.webp"] ⟨[], ⟨[], []⟩⟩ = .notFound404 := by
  have h := legacy_routes .local "missing.webp" "x" ["p", "f.txt"]
    ["avatars", "missing.webp"] ⟨[], ⟨[], []⟩⟩
  exact ⟨h.2.2.2.1 (by decide), h.2.2.2.2.1 (by decide)⟩

/-! ## Round-trip infrastructure (C2) -/

theorem s3Delete_put_self (s3 : S3State) (k : String) (o : S3Object) :
    s3Delete (s3Put s3 k o) k = s3Delete s3 k := by
  unfold s3Delete s3Put
  rw [List.filter_cons]
  simp [filter_idem]

theorem s3Lookup_delete_self (s3 : S3State) (k : String) :
    s3Lookup (s3Delete s3 k) k = none := by
  unfold s3Lookup s3Delete
  rw [List.find?_eq_none.mpr]
  · rfl
  · intro e he
    rcases List.mem_filter.mp he with ⟨_, hne⟩
    simpa using hne

theorem fsExistsFile_write_self (fs : LocalFS) (p : String) (b : Bytes) :
    fsExistsFile (fsWrite fs p b) p = true := by
  unfold fsExistsFile fsWrite
  simp

theorem fsRead_unlink_self (fs : LocalFS) (p : String) :
    fsRead (fsUnlink fs p) p = none := by
  unfold fsRead fsUnlink
  rw [List.find?_eq_none.mpr]
  · rfl
  · intro e he
    rcases List.mem_filter.mp he with ⟨_, hne⟩
    simpa using hne

theorem url_uploads_split (X : List String) (hX : X ≠ []) :
    "/" ++ joinSlash ("uploads" :: X) = "/uploads/" ++ joinSlash X := by
  rw [joinSlash_cons _ _ hX]
  apply str_ext
  simp [str_data_append, List.append_assoc]

theorem path_merge_avatars (fn : String) :
    uploadsDir ++ "/" ++ ("avatars/" ++ fn) = uploadsDir ++ "/avatars/" ++ fn := by
  apply str_ext
  simp [str_data_append, List.append_assoc]

theorem avatar_url_split (fn : String) :
    "/uploads/avatars/" ++ fn = "/uploads/" ++ ("avatars/" ++ fn) := by
  apply str_ext
  simp [str_data_append, List.append_assoc]

theorem joinSlash_sandwich (S : List String) (fn : String) :
    joinSlash ("attachments" :: (S ++ [fn])) = joinSlash ("attachments" :: S) ++ "/" ++ fn := by
  have h : "attachments" :: (S ++ [fn]) = ("attachments" :: S) ++ [fn] := rfl
  rw [h, joinSlash_append_last _ _ (by simp)]

theorem path_reassoc (a b fn : String) :
    a ++ "/" ++ (b ++ "/" ++ fn) = a ++ "/" ++ b ++ "/" ++ fn := by
  apply str_ext
  simp [str_data_append, List.append_assoc]

theorem afterFirst_http (rest : List Char) :
    afterFirst ([':', '/', '/']) ('h' :: 't' :: 't' :: 'p' :: ':' :: '/' :: '/' :: rest) =
      some rest := by
  simp [afterFirst, isPre]

theorem dropWhile_append_all (p : Char → Bool) (a b : List Char)
    (h : ∀ c ∈ a, p c = true) : (a ++ b).dropWhile p = b.dropWhile p := by
  induction a with
  | nil => rfl
  | cons x xs ih =>
    rw [List.cons_append, List.dropWhile_cons]
    rw [if_pos (h x (by simp))]
    exact ih (fun c hc => h c (by simp [hc]))

theorem http_url_data (host key : String) :
    ("http://" ++ host ++ "/" ++ key).data =
      'h' :: 't' :: 't' :: 'p' :: ':' :: '/' :: '/' :: (host.data ++ '/' :: key.data) := by
  simp [str_data_append, List.append_assoc]

theorem urlKeyOf_http (host key : String) (hhost : ∀ c ∈ host.data, c ≠ '/') :
    urlKeyOf ("http://" ++ host ++ "/" ++ key) = some key := by
  unfold urlKeyOf
  rw [show ("://" : String).data = [':', '/', '/'] from rfl, http_url_data host key,
    afterFirst_http]
  show some (⟨((host.data ++ '/' :: key.data).dropWhile (fun x => decide (x ≠ '/'))).drop 1⟩ : String) =
    some key
  rw [dropWhile_append_all (fun x => decide (x ≠ '/')) host.data ('/' :: key.data)
    (fun c hc => by simp [hhost c hc])]
  rw [List.dropWhile_cons]
  rw [if_neg (by simp)]
  rfl

/-- C2: a reference issued by `saveAvatar`/`saveAttachment` in mode M, given
to `deleteFile` in the same mode, parses back to exactly the stored
StorageKey and the delete targets that key: the S3 entry resp. the file
under the base directory is removed. The legacy absolute-URL shape likewise
parses back to the bucket key (its URL path without the leading slash). -/
theorem reference_roundtrip (uuid host key : String) (buf : Bytes)
    (file : FileBlob) (segs : List String) (w : World) :
    (∀ w1 url, saveAvatar .remote false uuid buf w = (w1, .ok url) →
      jsReplaceFirst url "/uploads/file/" = "avatars/" ++ ("avatar-" ++ uuid ++ ".webp") ∧
      deleteFile .remote false url w1 =
        ({ w1 with s3 := s3Delete w.s3 ("avatars/" ++ ("avatar-" ++ uuid ++ ".webp")) }, .ok ()) ∧
      s3Lookup (deleteFile .remote false url w1).1.s3
        ("avatars/" ++ ("avatar-" ++ uuid ++ ".webp")) = none) ∧
    (∀ w1 r, saveAttachment .remote false uuid file segs w = (w1, .ok r) →
      jsReplaceFirst r.url "/uploads/file/" =
        "attachments/" ++ joinSlash (segs.map sanitizeName) ++ "/" ++
          (uuid ++ "-" ++ file.originalname) ∧
      deleteFile .remote false r.url w1 =
        ({ w1 with s3 := s3Delete w.s3 ("attachments/" ++ joinSlash (segs.map sanitizeName) ++
          "/" ++ (uuid ++ "-" ++ file.originalname)) }, .ok ()) ∧
      s3Lookup (deleteFile .remote false r.url w1).1.s3
        ("attachments/" ++ joinSlash (segs.map sanitizeName) ++ "/" ++
          (uuid ++ "-" ++ file.originalname)) = none) ∧
    (∀ w1 url, saveAvatar .local false uuid buf w = (w1, .ok url) →
      stripUploads url = "avatars/" ++ ("avatar-" ++ uuid ++ ".webp") ∧
      deleteFile .local false url w1 =
        ({ w1 with fs := fsUnlink w1.fs (uploadsDir ++ "/avatars/" ++
          ("avatar-" ++ uuid ++ ".webp")) }, .ok ()) ∧
      fsRead (deleteFile .local false url w1).1.fs
        (uploadsDir ++ "/avatars/" ++ ("avatar-" ++ uuid ++ ".webp")) = none) ∧
    (∀ w1 r, saveAttachment .local false uuid file segs w = (w1, .ok r) →
      stripUploads r.url = joinSlash ("attachments" ::
        (segs.map sanitizeName ++ [uuid ++ "-" ++ file.originalname])) ∧
      deleteFile .local false r.url w1 =
        ({ w1 with fs := fsUnlink w1.fs (uploadsDir ++ "/" ++
          joinSlash ("attachments" :: segs.map sanitizeName) ++ "/" ++
          (uuid ++ "-" ++ file.originalname)) }, .ok ()) ∧
      fsRead (deleteFile .local false r.url w1).1.fs
        (uploadsDir ++ "/" ++ joinSlash ("attachments" :: segs.map sanitizeName) ++ "/" ++
          (uuid ++ "-" ++ file.originalname)) = none) ∧
    ((∀ c ∈ host.data, c ≠ '/') →
      urlKeyOf ("http://" ++ host ++ "/" ++ key) = some key ∧
      deleteFile .remote false ("http://" ++ host ++ "/" ++ key) w =
        ({ w with s3 := s3Delete w.s3 key }, .ok ())) := by
  refine ⟨?_, ?_, ?_, ?_, ?_⟩
  · -- remote avatar
    intro w1 url heq
    have heq2 : ({ w with s3 := (s3Put w.s3 ("avatars/" ++ ("avatar-" ++ uuid ++ ".webp"))
        ⟨buf, some "image/webp"⟩) },
        (Except.ok ("/uploads/file/" ++ ("avatars/" ++ ("avatar-" ++ uuid ++ ".webp"))) :
          Except StorageErr String)) = (w1, .ok url) := heq
    injection heq2 with hw hu
    injection hu with hu
    subst hw
    subst hu
    have hparse : jsReplaceFirst ("/uploads/file/" ++ ("avatars/" ++ ("avatar-" ++ uuid ++ ".webp")))
        "/uploads/file/" = "avatars/" ++ ("avatar-" ++ uuid ++ ".webp") :=
      jsReplaceFirst_pre _ _ (by decide)
    have hdel : deleteFile .remote false
        ("/uploads/file/" ++ ("avatars/" ++ ("avatar-" ++ uuid ++ ".webp")))
        { w with s3 := (s3Put w.s3 ("avatars/" ++ ("avatar-" ++ uuid ++ ".webp"))
          ⟨buf, some "image/webp"⟩) } =
        ({ w with s3 := s3Delete w.s3 ("avatars/" ++ ("avatar-" ++ uuid ++ ".webp")) }, .ok ()) := by
      rw [deleteFile_remote_proxy false _ _ (strStarts_append _ _)]
      simp only [Bool.false_eq_true, if_false, hparse]
      rw [s3Delete_put_self]
    exact ⟨hparse, hdel, by rw [hdel]; exact s3Lookup_delete_self _ _⟩
  · -- remote attachment
    intro w1 r heq
    have heq2 : ({ w with s3 := (s3Put w.s3 ("attachments/" ++ joinSlash (segs.map sanitizeName) ++
        "/" ++ (uuid ++ "-" ++ file.originalname)) ⟨file.buffer, some file.mimetype⟩) },
        (Except.ok (⟨"/uploads/file/" ++ ("attachments/" ++ joinSlash (segs.map sanitizeName) ++
          "/" ++ (uuid ++ "-" ++ file.originalname)),
          if strStarts file.mimetype "image/" then "IMAGE" else "FILE",
          file.originalname⟩ : AttachmentResult) : Except StorageErr AttachmentResult)) =
        (w1, .ok r) := heq
    injection heq2 with hw hu
    injection hu with hu
    subst hw
    subst hu
    have hparse : jsReplaceFirst ("/uploads/file/" ++ ("attachments/" ++
        joinSlash (segs.map sanitizeName) ++ "/" ++ (uuid ++ "-" ++ file.originalname)))
        "/uploads/file/" = "attachments/" ++ joinSlash (segs.map sanitizeName) ++ "/" ++
          (uuid ++ "-" ++ file.originalname) :=
      jsReplaceFirst_pre _ _ (by decide)
    have hdel : deleteFile .remote false
        ("/uploads/file/" ++ ("attachments/" ++ joinSlash (segs.map sanitizeName) ++ "/" ++
          (uuid ++ "-" ++ file.originalname)))
        { w with s3 := (s3Put w.s3 ("attachments/" ++ joinSlash (segs.map sanitizeName) ++ "/" ++
          (uuid ++ "-" ++ file.originalname)) ⟨file.buffer, some file.mimetype⟩) } =
        ({ w with s3 := s3Delete w.s3 ("attachments/" ++ joinSlash (segs.map sanitizeName) ++
          "/" ++ (uuid ++ "-" ++ file.originalname)) }, .ok ()) := by
      rw [deleteFile_remote_proxy false _ _ (strStarts_append _ _)]
      simp only [Bool.false_eq_true, if_false, hparse]
      rw [s3Delete_put_self]
    exact ⟨hparse, hdel, by rw [hdel]; exact s3Lookup_delete_self _ _⟩
  · -- local avatar
    intro w1 url heq
    have heq2 : ({ w with fs := (fsWrite w.fs (uploadsDir ++ "/avatars/" ++
        ("avatar-" ++ uuid ++ ".webp")) buf) },
        (Except.ok ("/uploads/avatars/" ++ ("avatar-" ++ uuid ++ ".webp")) :
          Except StorageErr String)) = (w1, .ok url) := heq
    injection heq2 with hw hu
    injection hu with hu
    subst hw
    subst hu
    have hstrip : stripUploads ("/uploads/avatars/" ++ ("avatar-" ++ uuid ++ ".webp")) =
        "avatars/" ++ ("avatar-" ++ uuid ++ ".webp") := by
      rw [avatar_url_split, stripUploads_pre]
    have hdel : deleteFile .local false
        ("/uploads/avatars/" ++ ("avatar-" ++ uuid ++ ".webp"))
        { w with fs := (fsWrite w.fs (uploadsDir ++ "/avatars/" ++
          ("avatar-" ++ uuid ++ ".webp")) buf) } =
        ({ w with fs := (fsUnlink (fsWrite w.fs (uploadsDir ++ "/avatars/" ++
          ("avatar-" ++ uuid ++ ".webp")) buf) (uploadsDir ++ "/avatars/" ++
          ("avatar-" ++ uuid ++ ".webp"))) }, .ok ()) := by
      rw [deleteFile_local_eq]
      simp only [Bool.false_eq_true, if_false, hstrip, path_merge_avatars]
      rw [if_pos (fsExistsFile_write_self _ _ _)]
    exact ⟨hstrip, hdel, by rw [hdel]; exact fsRead_unlink_self _ _⟩
  · -- local attachment
    intro w1 r heq
    have heq2 : ({ w with fs := (fsWrite
        (ensureDirectoryExists w.fs (uploadsDir ++ "/" ++
          joinSlash ("attachments" :: segs.map sanitizeName)))
        (uploadsDir ++ "/" ++ joinSlash ("attachments" :: segs.map sanitizeName) ++ "/" ++
          (uuid ++ "-" ++ file.originalname)) file.buffer) },
        (Except.ok (⟨"/" ++ joinSlash ("uploads" :: "attachments" ::
          (segs.map sanitizeName ++ [uuid ++ "-" ++ file.originalname])),
          if strStarts file.mimetype "image/" then "IMAGE" else "FILE",
          file.originalname⟩ : AttachmentResult) : Except StorageErr AttachmentResult)) =
        (w1, .ok r) := heq
    injection heq2 with hw hu
    injection hu with hu
    subst hw
    subst hu
    have hstrip : stripUploads ("/" ++ joinSlash ("uploads" :: "attachments" ::
        (segs.map sanitizeName ++ [uuid ++ "-" ++ file.originalname]))) =
        joinSlash ("attachments" ::
          (segs.map sanitizeName ++ [uuid ++ "-" ++ file.originalname])) := by
      rw [url_uploads_split ("attachments" ::
        (segs.map sanitizeName ++ [uuid ++ "-" ++ file.originalname])) (by simp),
        stripUploads_pre]
    have hpath : uploadsDir ++ "/" ++ joinSlash ("attachments" ::
        (segs.map sanitizeName ++ [uuid ++ "-" ++ file.originalname])) =
        uploadsDir ++ "/" ++ joinSlash ("attachments" :: segs.map sanitizeName) ++ "/" ++
          (uuid ++ "-" ++ file.originalname) := by
      rw [joinSlash_sandwich, path_reassoc]
    have hdel : deleteFile .local false
        ("/" ++ joinSlash ("uploads" :: "attachments" ::
          (segs.map sanitizeName ++ [uuid ++ "-" ++ file.originalname])))
        { w with fs := (fsWrite
          (ensureDirectoryExists w.fs (uploadsDir ++ "/" ++
            joinSlash ("attachments" :: segs.map sanitizeName)))
          (uploadsDir ++ "/" ++ joinSlash ("attachments" :: segs.map sanitizeName) ++ "/" ++
            (uuid ++ "-" ++ file.originalname)) file.buffer) } =
        ({ w with fs := (fsUnlink (fsWrite
          (ensureDirectoryExists w.fs (uploadsDir ++ "/" ++
            joinSlash ("attachments" :: segs.map sanitizeName)))
          (uploadsDir ++ "/" ++ joinSlash ("attachments" :: segs.map sanitizeName) ++ "/" ++
            (uuid ++ "-" ++ file.originalname)) file.buffer)
          (uploadsDir ++ "/" ++ joinSlash ("attachments" :: segs.map sanitizeName) ++ "/" ++
            (uuid ++ "-" ++ file.originalname))) }, .ok ()) := by
      rw [deleteFile_local_eq]
      simp only [Bool.false_eq_true, if_false, hstrip, hpath]
      rw [if_pos (fsExistsFile_write_self _ _ _)]
    exact ⟨hstrip, hdel, by rw [hdel]; exact fsRead_unlink_self _ _⟩
  · -- legacy absolute URL
    intro hhost
    have hku := urlKeyOf_http host key hhost
    have h1 : strStarts ("http://" ++ host ++ "/" ++ key) "/uploads/file/" = false := by
      unfold strStarts
      rw [http_url_data]
      simp [isPre]
    have h2 : strStarts ("http://" ++ host ++ "/" ++ key) "http" = true := by
      unfold strStarts
      rw [http_url_data]
      simp [isPre]
    refine ⟨hku, ?_⟩
    rw [deleteFile_remote_http false _ _ h1 h2]
    simp only [Bool.false_eq_true, if_false, hku]

theorem reference_roundtrip_witness :
    jsReplaceFirst ("/uploads/file/" ++ ("avatars/" ++ ("avatar-" ++ "u" ++ ".webp")))
      "/uploads/file/" = "avatars/" ++ ("avatar-" ++ "u" ++ ".webp") ∧
    jsReplaceFirst ("/uploads/file/" ++ ("attachments/" ++ joinSlash (["P"].map sanitizeName) ++
      "/" ++ ("u" ++ "-" ++ "n.txt"))) "/uploads/file/" =
      "attachments/" ++ joinSlash (["P"].map sanitizeName) ++ "/" ++ ("u" ++ "-" ++ "n.txt") ∧
    stripUploads ("/uploads/avatars/" ++ ("avatar-" ++ "u" ++ ".webp")) =
      "avatars/" ++ ("avatar-" ++ "u" ++ ".webp") ∧
    stripUploads ("/" ++ joinSlash ("uploads" :: "attachments" ::
      (["P"].map sanitizeName ++ ["u" ++ "-" ++ "n.txt"]))) =
      joinSlash ("attachments" :: (["P"].map sanitizeName ++ ["u" ++ "-" ++ "n.txt"])) ∧
    deleteFile .remote false ("http://" ++ "h.example.com" ++ "/" ++ "k1/k2")
      ⟨[("k1/k2", ⟨[9], some "text/plain"⟩)], ⟨[], []⟩⟩ =
      (⟨s3Delete [("k1/k2", ⟨[9], some "text/plain"⟩)] "k1/k2", ⟨[], []⟩⟩, .ok ()) := by
  have h := reference_roundtrip "u" "h.example.com" "k1/k2" [1] ⟨[2], "text/plain", "n.txt"⟩
    ["P"] ⟨[("k1/k2", ⟨[9], some "text/plain"⟩)], ⟨[], []⟩⟩
  exact ⟨(h.1 _ _ rfl).1, (h.2.1 _ _ rfl).1, (h.2.2.1 _ _ rfl).1, (h.2.2.2.1 _ _ rfl).1,
    (h.2.2.2.2 (by decide)).2⟩

end Uploads
